import Mathlib

/-!
Shallow embedding of `src/blockchain/compact_filters/peer.rs` (the `Peer`
endpoint of a BIP 157/158 compact-filters client): the shared `Mempool`,
the response-mailbox registry (`ResponsesMap`), one iteration of the
reader thread loop, `Peer::_recv`, and the typed request helpers
(`get_cf_checkpt`, `get_cf_headers`, `get_block`, `ask_for_mempool`).

Modelling conventions:
 - hashes (`Txid`, `Wtxid`, `BlockHash`) are wrappers around a byte list
   (`List Nat`);
 - `Transaction` is opaque: a body plus its `txid` accessor, as in the
   spec's data model;
 - the `RwLock<HashMap<..>>` of the mempool and the registry are modelled
   as pure functions updated pointwise (single-threaded interleaving: each
   claim is about the value-level effect of one operation at a time);
 - mailbox queues are `List NetworkMessage`, pushed at the tail by the
   reader (`Vec::push`) and popped at the tail by `_recv` (`Vec::pop`);
 - the synchronous request helpers are functions of the messages that
   their internal `recv` calls yield (an oracle argument), and they also
   return the trace of send/recv actions they perform, so that the wire
   messages sent, the mailbox keys awaited and the timeouts used are part
   of the model. Socket writes are assumed to succeed (wire-level
   `DataCorruption` on encode is out of scope of the claims).
-/

namespace Bdk

/-- 32-byte transaction id (`bitcoin::Txid`); equality by content. -/
structure Txid where
  inner : List Nat
  deriving DecidableEq

/-- 32-byte witness transaction id (`bitcoin::Wtxid`). -/
structure Wtxid where
  inner : List Nat
  deriving DecidableEq

/-- Reinterpret raw bytes as a `Txid` (`Txid::from_inner`). -/
def Txid.from_inner (bytes : List Nat) : Txid := ⟨bytes⟩

/-- Extract the raw bytes of a `Wtxid` (`wtxid.into_inner()`). -/
def Wtxid.into_inner (w : Wtxid) : List Nat := w.inner

/-- 32-byte block hash (`bitcoin::BlockHash`). -/
structure BlockHash where
  inner : List Nat
  deriving DecidableEq

/-- A Bitcoin transaction: opaque serializable body with a `txid` accessor
(the core never looks inside). -/
structure Transaction where
  txid : Txid
  body : List Nat
  deriving DecidableEq

/-- A Bitcoin block, opaque to the core. -/
structure Block where
  raw : List Nat
  deriving DecidableEq

/-- `bitcoin::network::message_blockdata::Inventory`, the five variants
matched by `Mempool::get_tx`. -/
inductive Inventory where
  | error
  | transaction (txid : Txid)
  | block (hash : BlockHash)
  | witnessTransaction (wtxid : Wtxid)
  | witnessBlock (hash : BlockHash)
  deriving DecidableEq

/-- `GetCFCheckpt` request payload. -/
structure GetCFCheckpt where
  filter_type : Nat
  stop_hash : BlockHash
  deriving DecidableEq

/-- `CFCheckpt` reply payload. -/
structure CFCheckpt where
  filter_type : Nat
  stop_hash : BlockHash
  filter_headers : List (List Nat)
  deriving DecidableEq

/-- `GetCFHeaders` request payload. -/
structure GetCFHeaders where
  filter_type : Nat
  start_height : Nat
  stop_hash : BlockHash
  deriving DecidableEq

/-- `CFHeaders` reply payload. -/
structure CFHeaders where
  filter_type : Nat
  stop_hash : BlockHash
  previous_filter_header : List Nat
  filter_hashes : List (List Nat)
  deriving DecidableEq

/-- `GetCFilters` request payload. -/
structure GetCFilters where
  filter_type : Nat
  start_height : Nat
  stop_hash : BlockHash
  deriving DecidableEq

/-- `CFilter` reply payload. -/
structure CFilter where
  filter_type : Nat
  block_hash : BlockHash
  filter : List Nat
  deriving DecidableEq

/-- Handshake `version` payload; only the fields the claims need. -/
structure VersionMessage where
  user_agent : String
  start_height : Nat
  deriving DecidableEq

/-- `bitcoin::network::message::NetworkMessage`, restricted to the
variants named by the core. -/
inductive NetworkMessage where
  | version (v : VersionMessage)
  | verack
  | ping (nonce : Nat)
  | pong (nonce : Nat)
  | alert (payload : List Nat)
  | inv (inventory : List Inventory)
  | getData (inventory : List Inventory)
  | notFound (inventory : List Inventory)
  | tx (transaction : Transaction)
  | block (b : Block)
  | memPool
  | getCFCheckpt (m : GetCFCheckpt)
  | cfCheckpt (m : CFCheckpt)
  | getCFHeaders (m : GetCFHeaders)
  | cfHeaders (m : CFHeaders)
  | getCFilters (m : GetCFilters)
  | cfilter (m : CFilter)
  deriving DecidableEq

/-- Canonical command-name string of a message (`NetworkMessage::cmd`),
used as the mailbox key by the reader thread and by `recv`. -/
def NetworkMessage.cmd : NetworkMessage → String
  | .version _ => "version"
  | .verack => "verack"
  | .ping _ => "ping"
  | .pong _ => "pong"
  | .alert _ => "alert"
  | .inv _ => "inv"
  | .getData _ => "getdata"
  | .notFound _ => "notfound"
  | .tx _ => "tx"
  | .block _ => "block"
  | .memPool => "mempool"
  | .getCFCheckpt _ => "getcfcheckpt"
  | .cfCheckpt _ => "cfcheckpt"
  | .getCFHeaders _ => "getcfheaders"
  | .cfHeaders _ => "cfheaders"
  | .getCFilters _ => "getcfilters"
  | .cfilter _ => "cfilter"

/-- `RawNetworkMessage`: network magic plus payload. -/
structure RawNetworkMessage where
  magic : Nat
  payload : NetworkMessage

/-- `CompactFiltersError`, restricted to the kinds produced by `peer.rs`. -/
inductive CompactFiltersError where
  | timeout
  | invalidResponse
  | dataCorruption
  deriving DecidableEq

/-- `pub(crate) const TIMEOUT_SECS: u64 = 30`. -/
def TIMEOUT_SECS : Nat := 30

/-- Container for unconfirmed transactions (`struct Mempool`): the
`RwLock<HashMap<Txid, Transaction>>` modelled as `Txid → Option
Transaction`. -/
structure Mempool where
  txs : Txid → Option Transaction

/-- The freshly created, empty mempool (`Mempool::default()`). -/
def Mempool.default : Mempool := ⟨fun _ => none⟩

/-- `Mempool::add_tx`: `self.txs.write().unwrap().insert(tx.txid(), tx)`
(`HashMap::insert` overwrites an existing entry with the same key). -/
def Mempool.add_tx (self : Mempool) (tx : Transaction) : Mempool :=
  ⟨fun k => if k = tx.txid then some tx else self.txs k⟩

/-- `Mempool::get_tx`: look up a transaction given an `Inventory` item.
`Error`, `Block` and `WitnessBlock` return `None`; a `WitnessTransaction`
id is reinterpreted as a `Txid` by direct byte reuse. -/
def Mempool.get_tx (self : Mempool) (inventory : Inventory) : Option Transaction :=
  match inventory with
  | .error | .block _ | .witnessBlock _ => none
  | .transaction txid => self.txs txid
  | .witnessTransaction wtxid => self.txs (Txid.from_inner wtxid.into_inner)

/-- `Mempool::has_tx`: membership of a txid. -/
def Mempool.has_tx (self : Mempool) (txid : Txid) : Bool :=
  (self.txs txid).isSome

/-- Invariant of the mempool map: every key maps to a transaction whose
txid equals that key. -/
def Mempool.Invariant (self : Mempool) : Prop :=
  ∀ k t, self.txs k = some t → t.txid = k

/-- `type ResponsesMap = HashMap<&'static str, Arc<(Mutex<Vec<NetworkMessage>>, Condvar)>>`:
the registry modelled as the queue contents per command name (a missing
entry and an entry holding an empty `Vec` are observationally the same:
`entry(..).or_default()`). -/
abbrev ResponsesMap := String → List NetworkMessage

/-- Registry with every mailbox empty (fresh peer). -/
def emptyResponses : ResponsesMap := fun _ => []

/-- Routing step of `Peer::reader_thread`: push the message at the tail of
the mailbox keyed by its own command name and notify waiters. -/
def routeMessage (responses : ResponsesMap) (in_message : NetworkMessage) : ResponsesMap :=
  fun c => if c = in_message.cmd then responses c ++ [in_message] else responses c

/-- One send or recv action performed by a `Peer` request helper, recorded
so the wire messages written, the mailbox keys awaited and the timeouts
used (in seconds) are part of the model. -/
inductive PeerAction where
  | sendMsg (payload : NetworkMessage)
  | recvMsg (wait_for : String) (timeout_secs : Option Nat)
  deriving DecidableEq

namespace Peer

/-- One iteration of the loop in `Peer::reader_thread`, given the decoded
`RawNetworkMessage`. Returns the updated registry and the list of messages
sent back over the writer, in order. A frame whose magic differs from the
network magic is discarded; `Ping` is answered with `Pong` and not routed;
`Alert` is dropped; `GetData` is served from the mempool (one `Tx` per
found item in input order, then a single `NotFound` with the not-found
items if any) and then, like every remaining message, falls through to
routing into the mailbox keyed by its own command name. -/
def reader_thread_step (network_magic : Nat) (mempool : Mempool)
    (raw_message : RawNetworkMessage) (responses : ResponsesMap) :
    ResponsesMap × List NetworkMessage :=
  if raw_message.magic ≠ network_magic then (responses, [])
  else
    match raw_message.payload with
    | .ping nonce => (responses, [.pong nonce])
    | .alert _ => (responses, [])
    | .getData inv =>
        let parts := (inv.map (fun item => (item, mempool.get_tx item))).partition
          (fun p => p.2.isSome)
        let sent := parts.1.filterMap (fun p => p.2.map NetworkMessage.tx) ++
          (if parts.2.isEmpty then [] else
            [NetworkMessage.notFound (parts.2.map (fun p => p.1))])
        (routeMessage responses (.getData inv), sent)
    | m => (routeMessage responses m, [])

/-- `Peer::_recv` observed in a quiescent state (no concurrent arrival):
with the mailbox for `wait_for` non-empty it pops the tail-most message
(`Vec::pop` removes the LAST element) and leaves the rest; with it empty,
a timed-out wait returns `none` and leaves every queue unchanged. A call
with no timeout on an empty queue blocks and is not modelled. -/
def _recv (responses : ResponsesMap) (wait_for : String) :
    Option NetworkMessage × ResponsesMap :=
  let messages := responses wait_for
  match messages.getLast? with
  | none => (none, responses)
  | some m =>
      (some m, fun c => if c = wait_for then messages.dropLast else responses c)

/-- `Peer::get_cf_checkpt` as a function of the message its `recv` call
yields (`none` = timeout): sends `GetCFCheckpt`, awaits `"cfcheckpt"` with
the 30 s timeout, rejects a non-`CFCheckpt` reply and a reply whose
`filter_type` differs from the request. -/
def get_cf_checkpt (filter_type : Nat) (stop_hash : BlockHash)
    (response : Option NetworkMessage) :
    List PeerAction × Except CompactFiltersError CFCheckpt :=
  ([.sendMsg (.getCFCheckpt ⟨filter_type, stop_hash⟩),
    .recvMsg "cfcheckpt" (some TIMEOUT_SECS)],
   match response with
   | none => .error .timeout
   | some (.cfCheckpt r) =>
       if r.filter_type ≠ filter_type then .error .invalidResponse else .ok r
   | some _ => .error .invalidResponse)

/-- `Peer::get_cf_headers` as a function of the message its `recv` call
yields: sends `GetCFHeaders`, awaits `"cfheaders"` with the 30 s timeout,
rejects a non-`CFHeaders` reply and a `filter_type` mismatch. -/
def get_cf_headers (filter_type : Nat) (start_height : Nat) (stop_hash : BlockHash)
    (response : Option NetworkMessage) :
    List PeerAction × Except CompactFiltersError CFHeaders :=
  ([.sendMsg (.getCFHeaders ⟨filter_type, start_height, stop_hash⟩),
    .recvMsg "cfheaders" (some TIMEOUT_SECS)],
   match response with
   | none => .error .timeout
   | some (.cfHeaders r) =>
       if r.filter_type ≠ filter_type then .error .invalidResponse else .ok r
   | some _ => .error .invalidResponse)

/-- `Peer::get_block` as a function of the message its `recv` call yields:
sends `GetData([WitnessBlock(hash)])`, awaits `"block"` with the 30 s
timeout; timeout is `Ok(None)`, a `Block` reply is `Ok(Some(..))`, any
other variant is `InvalidResponse`. -/
def get_block (block_hash : BlockHash) (response : Option NetworkMessage) :
    List PeerAction × Except CompactFiltersError (Option Block) :=
  ([.sendMsg (.getData [.witnessBlock block_hash]),
    .recvMsg "block" (some TIMEOUT_SECS)],
   match response with
   | none => .ok none
   | some (.block b) => .ok (some b)
   | some _ => .error .invalidResponse)

/-- The `for _ in 0..num_txs` loop at the end of `Peer::ask_for_mempool`:
`tx_responses i` is the message the i-th `recv("tx", 30 s)` yields. Each
received `Tx` is inserted into the mempool before the next iteration; a
timeout aborts with `Timeout`, a non-`Tx` message with `InvalidResponse`,
leaving the insertions already made in place. -/
def ask_for_mempool_loop (tx_responses : Nat → Option NetworkMessage) :
    Nat → Mempool → Nat → List PeerAction × Mempool × Except CompactFiltersError Unit
  | _, mempool, 0 => ([], mempool, .ok ())
  | start, mempool, num_txs + 1 =>
      let act := PeerAction.recvMsg "tx" (some TIMEOUT_SECS)
      match tx_responses start with
      | none => ([act], mempool, .error .timeout)
      | some (.tx t) =>
          let rest := ask_for_mempool_loop tx_responses (start + 1) (mempool.add_tx t) num_txs
          (act :: rest.1, rest.2)
      | some _ => ([act], mempool, .error .invalidResponse)

/-- The filter closure in `Peer::ask_for_mempool`: keep exactly the
`Transaction` items whose txid the local mempool does not already have
(every other variant is dropped). -/
def wanted_inv (mempool : Mempool) (item : Inventory) : Bool :=
  match item with
  | .transaction txid => !mempool.has_tx txid
  | _ => false

/-- `Peer::ask_for_mempool` as a function of the messages its `recv` calls
yield: sends `MemPool`, awaits `"inv"` with a 5 s timeout (timeout =
`Ok(())`, empty mempool); on `Inv`, filters to the `Transaction` items the
local mempool lacks, sends one `GetData` with that filtered list and
drains as many `"tx"` messages; any other variant is `InvalidResponse`. -/
def ask_for_mempool (mempool : Mempool) (inv_response : Option NetworkMessage)
    (tx_responses : Nat → Option NetworkMessage) :
    List PeerAction × Mempool × Except CompactFiltersError Unit :=
  let head : List PeerAction := [.sendMsg .memPool, .recvMsg "inv" (some 5)]
  match inv_response with
  | none => (head, mempool, .ok ())
  | some (.inv inv) =>
      let getdata := inv.filter (wanted_inv mempool)
      let num_txs := getdata.length
      let rest := ask_for_mempool_loop tx_responses 0 mempool num_txs
      (head ++ [.sendMsg (.getData getdata)] ++ rest.1, rest.2)
  | some _ => (head, mempool, .error .invalidResponse)

end Peer

/-! Theorems. -/

/-- Adding a transaction never removes another: `has_tx` is monotone under
`add_tx`. -/
theorem Mempool.has_tx_add_tx (m : Mempool) (t : Transaction) (k : Txid)
    (h : m.has_tx k = true) : (m.add_tx t).has_tx k = true := by
  by_cases hk : k = t.txid
  · simp [Mempool.add_tx, Mempool.has_tx, hk]
  · simpa [Mempool.add_tx, Mempool.has_tx, hk] using h

/-- Claim C5: after `add_tx t`, `has_tx (t.txid)` holds and
`get_tx (Transaction (t.txid))` returns `some t`; `get_tx` on a `Block`,
`WitnessBlock` or `Error` item is always `none`; and `add_tx` (the only
mutating operation; the read operations do not touch the map) preserves
the invariant that every key maps to a transaction whose txid equals that
key. -/
theorem mempool_identity (m : Mempool) (t : Transaction) (h w : BlockHash)
    (hinv : m.Invariant) :
    ((m.add_tx t).has_tx t.txid = true) ∧
    ((m.add_tx t).get_tx (.transaction t.txid) = some t) ∧
    (m.get_tx (.block h) = none) ∧
    (m.get_tx (.witnessBlock w) = none) ∧
    (m.get_tx .error = none) ∧
    (m.add_tx t).Invariant := by
  refine ⟨?_, ?_, rfl, rfl, rfl, ?_⟩
  · simp [Mempool.add_tx, Mempool.has_tx]
  · simp [Mempool.add_tx, Mempool.get_tx]
  · intro k u hu
    by_cases hk : k = t.txid
    · subst hk
      simp [Mempool.add_tx] at hu
      simp [hu.symm]
    · simp [Mempool.add_tx, hk] at hu
      exact hinv k u hu

/-- Witness for C5 at a concrete transaction and the empty mempool. -/
theorem mempool_identity_witness :
    (((Mempool.default).add_tx ⟨⟨[1]⟩, [9]⟩).has_tx ⟨[1]⟩ = true) ∧
    (((Mempool.default).add_tx ⟨⟨[1]⟩, [9]⟩).get_tx (.transaction ⟨[1]⟩)
        = some ⟨⟨[1]⟩, [9]⟩) ∧
    ((Mempool.default).get_tx (.block ⟨[2]⟩) = none) ∧
    ((Mempool.default).get_tx (.witnessBlock ⟨[3]⟩) = none) ∧
    ((Mempool.default).get_tx .error = none) ∧
    ((Mempool.default).add_tx ⟨⟨[1]⟩, [9]⟩).Invariant :=
  mempool_identity Mempool.default ⟨⟨[1]⟩, [9]⟩ ⟨[2]⟩ ⟨[3]⟩
    (fun _ _ hu => Option.noConfusion hu)

/-- Claim C6: `get_tx` on a `WitnessTransaction` item whose bytes equal
the bytes of the txid of a transaction present in the mempool returns
that transaction, and in general `get_tx (WitnessTransaction w)` equals
`get_tx (Transaction ..)` at the same bytes reinterpreted as a `Txid`
(the mempool does not distinguish wtxid from txid). -/
theorem mempool_wtxid_aliasing (m : Mempool) (t : Transaction) (w : Wtxid)
    (hmem : m.txs t.txid = some t) (hbytes : w.into_inner = t.txid.inner) :
    m.get_tx (.witnessTransaction w) = some t ∧
    m.get_tx (.witnessTransaction w)
      = m.get_tx (.transaction (Txid.from_inner w.into_inner)) := by
  have e : Txid.from_inner w.into_inner = t.txid := by
    show Txid.mk w.inner = t.txid
    rw [show w.inner = t.txid.inner from hbytes]
  refine ⟨?_, rfl⟩
  show m.txs (Txid.from_inner w.into_inner) = some t
  rw [e]
  exact hmem

/-- Witness for C6 at a concrete 32-byte id. -/
theorem mempool_wtxid_aliasing_witness :
    ((Mempool.default).add_tx ⟨⟨List.replicate 32 1⟩, [9]⟩).get_tx
        (.witnessTransaction ⟨List.replicate 32 1⟩)
      = some ⟨⟨List.replicate 32 1⟩, [9]⟩ ∧
    ((Mempool.default).add_tx ⟨⟨List.replicate 32 1⟩, [9]⟩).get_tx
        (.witnessTransaction ⟨List.replicate 32 1⟩)
      = ((Mempool.default).add_tx ⟨⟨List.replicate 32 1⟩, [9]⟩).get_tx
          (.transaction (Txid.from_inner (Wtxid.into_inner ⟨List.replicate 32 1⟩))) :=
  mempool_wtxid_aliasing ((Mempool.default).add_tx ⟨⟨List.replicate 32 1⟩, [9]⟩)
    ⟨⟨List.replicate 32 1⟩, [9]⟩ ⟨List.replicate 32 1⟩ (by decide) rfl

/-- Claim C4: `get_cf_checkpt` and `get_cf_headers` return the reply
record exactly when its `filter_type` equals the requested one, and fail
with `InvalidResponse` when it differs. -/
theorem cf_filter_type_check (filter_type start_height : Nat)
    (stop_hash : BlockHash) (c : CFCheckpt) (hs : CFHeaders) :
    ((Peer.get_cf_checkpt filter_type stop_hash (some (.cfCheckpt c))).2
        = if c.filter_type = filter_type then .ok c
          else .error .invalidResponse) ∧
    ((Peer.get_cf_headers filter_type start_height stop_hash
          (some (.cfHeaders hs))).2
        = if hs.filter_type = filter_type then .ok hs
          else .error .invalidResponse) := by
  constructor
  · by_cases hc : c.filter_type = filter_type <;>
      simp [Peer.get_cf_checkpt, hc]
  · by_cases hc : hs.filter_type = filter_type <;>
      simp [Peer.get_cf_headers, hc]

/-- Claim C7: `get_block hash` sends `GetData([WitnessBlock hash])` and
awaits the block mailbox with the 30 s timeout; timeout yields `Ok none`,
a `Block` reply yields `Ok (some ..)`, and any other message variant
yields `InvalidResponse`. -/
theorem get_block_spec (block_hash : BlockHash) (b : Block)
    (r : Option NetworkMessage) (msg : NetworkMessage)
    (hmsg : ∀ b2, msg ≠ .block b2) :
    ((Peer.get_block block_hash r).1
        = [.sendMsg (.getData [.witnessBlock block_hash]),
           .recvMsg "block" (some 30)]) ∧
    ((Peer.get_block block_hash none).2 = .ok none) ∧
    ((Peer.get_block block_hash (some (.block b))).2 = .ok (some b)) ∧
    ((Peer.get_block block_hash (some msg)).2 = .error .invalidResponse) := by
  refine ⟨rfl, rfl, rfl, ?_⟩
  cases msg <;> first | rfl | exact absurd rfl (hmsg _)

/-- Witness for C7 at a concrete hash and a `Verack` reply. -/
theorem get_block_spec_witness :
    ((Peer.get_block ⟨[5]⟩ none).1
        = [.sendMsg (.getData [.witnessBlock ⟨[5]⟩]),
           .recvMsg "block" (some 30)]) ∧
    ((Peer.get_block ⟨[5]⟩ none).2 = .ok none) ∧
    ((Peer.get_block ⟨[5]⟩ (some (.block ⟨[6]⟩))).2 = .ok (some ⟨[6]⟩)) ∧
    ((Peer.get_block ⟨[5]⟩ (some .verack)).2 = .error .invalidResponse) :=
  get_block_spec ⟨[5]⟩ ⟨[6]⟩ none .verack
    (fun _ hc => NetworkMessage.noConfusion hc)

/-- Claim C8: `ask_for_mempool` sends `MemPool` and awaits the inv
mailbox with a 5 s timeout; a timeout of that wait returns `Ok ()` with
the mempool untouched, and a non-`Inv` message for that key returns
`InvalidResponse`. -/
theorem ask_for_mempool_inv_spec (mempool : Mempool)
    (tx_responses : Nat → Option NetworkMessage) (r : Option NetworkMessage)
    (msg : NetworkMessage) (hmsg : ∀ l, msg ≠ .inv l) :
    ((Peer.ask_for_mempool mempool r tx_responses).1.take 2
        = [.sendMsg .memPool, .recvMsg "inv" (some 5)]) ∧
    (Peer.ask_for_mempool mempool none tx_responses
        = ([.sendMsg .memPool, .recvMsg "inv" (some 5)], mempool, .ok ())) ∧
    ((Peer.ask_for_mempool mempool (some msg) tx_responses).2.2
        = .error .invalidResponse) := by
  refine ⟨?_, rfl, ?_⟩
  · cases r with
    | none => rfl
    | some m => cases m <;> rfl
  · cases msg <;> first | rfl | exact absurd rfl (hmsg _)

/-- Witness for C8 at a timeout and at a `Verack` reply. -/
theorem ask_for_mempool_inv_spec_witness :
    ((Peer.ask_for_mempool Mempool.default none (fun _ => none)).1.take 2
        = [.sendMsg .memPool, .recvMsg "inv" (some 5)]) ∧
    (Peer.ask_for_mempool Mempool.default none (fun _ => none)
        = ([.sendMsg .memPool, .recvMsg "inv" (some 5)],
           Mempool.default, .ok ())) ∧
    ((Peer.ask_for_mempool Mempool.default (some .verack) (fun _ => none)).2.2
        = .error .invalidResponse) :=
  ask_for_mempool_inv_spec Mempool.default (fun _ => none) none .verack
    (fun _ hc => NetworkMessage.noConfusion hc)

/-- Claim C9: when every advertised inventory item is filtered out (it is
not a `Transaction` item or is already in the local mempool),
`ask_for_mempool` still sends `GetData` with the empty list, performs no
recv on the tx mailbox, leaves the mempool unchanged and returns
`Ok ()`. -/
theorem ask_for_mempool_empty_getdata (mempool : Mempool)
    (tx_responses : Nat → Option NetworkMessage) (inv : List Inventory)
    (hfilter : inv.filter (Peer.wanted_inv mempool) = []) :
    Peer.ask_for_mempool mempool (some (.inv inv)) tx_responses
      = ([.sendMsg .memPool, .recvMsg "inv" (some 5),
          .sendMsg (.getData [])], mempool, .ok ()) := by
  simp [Peer.ask_for_mempool, hfilter, Peer.ask_for_mempool_loop]

/-- Witness for C9: one item already held, one block item. -/
theorem ask_for_mempool_empty_getdata_witness :
    Peer.ask_for_mempool ((Mempool.default).add_tx ⟨⟨[1]⟩, [9]⟩)
        (some (.inv [.transaction ⟨[1]⟩, .block ⟨[2]⟩])) (fun _ => none)
      = ([.sendMsg .memPool, .recvMsg "inv" (some 5),
          .sendMsg (.getData [])],
         (Mempool.default).add_tx ⟨⟨[1]⟩, [9]⟩, .ok ()) :=
  ask_for_mempool_empty_getdata ((Mempool.default).add_tx ⟨⟨[1]⟩, [9]⟩)
    (fun _ => none) [.transaction ⟨[1]⟩, .block ⟨[2]⟩] (by decide)

/-- Claim C1 counterexample: push `Pong 1` and then `Pong 2` into the
empty pong mailbox the way the reader routes them; the first `recv`
returns `Pong 2`, not `Pong 1`, because `Vec::pop` removes the tail-most
element. Per-command delivery is therefore not FIFO. -/
theorem recv_fifo_counterexample :
    (Peer._recv (routeMessage (routeMessage emptyResponses (.pong 1))
        (.pong 2)) "pong").1 = some (.pong 2) ∧
    (Peer._recv (routeMessage (routeMessage emptyResponses (.pong 1))
        (.pong 2)) "pong").1 ≠ some (.pong 1) :=
  ⟨by decide, by decide⟩

/-- Claim C1 (amended): per-command delivery is LIFO. If the reader
pushes `m1` and then `m2` into the (previously empty) mailbox for
command `c`, two successive `recv c` calls return `m2` first and `m1`
second. -/
theorem recv_lifo (responses : ResponsesMap) (c : String)
    (m1 m2 : NetworkMessage) (h0 : responses c = [])
    (h1 : m1.cmd = c) (h2 : m2.cmd = c) :
    (Peer._recv (routeMessage (routeMessage responses m1) m2) c).1
        = some m2 ∧
    (Peer._recv
        (Peer._recv (routeMessage (routeMessage responses m1) m2) c).2
        c).1 = some m1 := by
  have q2 : routeMessage (routeMessage responses m1) m2 c = [m1, m2] := by
    simp [routeMessage, h1, h2, h0]
  constructor
  · simp [Peer._recv, q2]
  · simp [Peer._recv, q2]

/-- Witness for C1 (amended) at two concrete pong messages. -/
theorem recv_lifo_witness :
    (Peer._recv (routeMessage (routeMessage emptyResponses (.pong 1))
        (.pong 2)) "pong").1 = some (.pong 2) ∧
    (Peer._recv
        (Peer._recv (routeMessage (routeMessage emptyResponses (.pong 1))
            (.pong 2)) "pong").2
        "pong").1 = some (.pong 1) :=
  recv_lifo emptyResponses "pong" (.pong 1) (.pong 2) rfl rfl rfl

/-- Claim C2 counterexample: after the reader handles a
`GetData([Transaction ..])` frame the getdata mailbox has changed: the
`GetData` match arm has no `continue`, so the message falls through to
routing, and a subsequent `recv` on the getdata key observes it. -/
theorem reader_getdata_mailbox_counterexample :
    ((Peer.reader_thread_step 0 Mempool.default
        ⟨0, .getData [.transaction ⟨[1]⟩]⟩ emptyResponses).1 "getdata"
      = [.getData [.transaction ⟨[1]⟩]]) ∧
    ((Peer.reader_thread_step 0 Mempool.default
        ⟨0, .getData [.transaction ⟨[1]⟩]⟩ emptyResponses).1 "getdata"
      ≠ emptyResponses "getdata") ∧
    ((Peer._recv (Peer.reader_thread_step 0 Mempool.default
        ⟨0, .getData [.transaction ⟨[1]⟩]⟩ emptyResponses).1 "getdata").1
      = some (.getData [.transaction ⟨[1]⟩])) :=
  ⟨by decide, by decide, by decide⟩

/-- Claim C2 (amended): the reader serves a `GetData` frame transparently
and then still routes it like any non-transparent message: the getdata
mailbox queue grows by exactly that message and every other mailbox is
unchanged. -/
theorem reader_getdata_routes (network_magic : Nat) (mempool : Mempool)
    (inv : List Inventory) (responses : ResponsesMap) (c : String)
    (hc : c ≠ "getdata") :
    ((Peer.reader_thread_step network_magic mempool
        ⟨network_magic, .getData inv⟩ responses).1 "getdata"
      = responses "getdata" ++ [.getData inv]) ∧
    ((Peer.reader_thread_step network_magic mempool
        ⟨network_magic, .getData inv⟩ responses).1 c = responses c) := by
  constructor
  · simp [Peer.reader_thread_step, routeMessage, NetworkMessage.cmd]
  · simp [Peer.reader_thread_step, routeMessage, NetworkMessage.cmd, hc]

/-- Witness for C2 (amended) at a concrete frame and the tx mailbox. -/
theorem reader_getdata_routes_witness :
    ((Peer.reader_thread_step 0 Mempool.default
        ⟨0, .getData [.transaction ⟨[1]⟩]⟩ emptyResponses).1 "getdata"
      = emptyResponses "getdata" ++ [.getData [.transaction ⟨[1]⟩]]) ∧
    ((Peer.reader_thread_step 0 Mempool.default
        ⟨0, .getData [.transaction ⟨[1]⟩]⟩ emptyResponses).1 "tx"
      = emptyResponses "tx") :=
  reader_getdata_routes 0 Mempool.default [.transaction ⟨[1]⟩]
    emptyResponses "tx" (by decide)

/-- Auxiliary: the found half of the partition in the reader getdata arm,
sent as `Tx` messages, equals the in-order found transactions of the
inventory list. -/
theorem serve_found_eq (get : Inventory → Option Transaction)
    (inv : List Inventory) :
    ((inv.map (fun i => (i, get i))).filter
        (fun p => p.2.isSome)).filterMap (fun p => p.2.map NetworkMessage.tx)
      = (inv.filterMap get).map NetworkMessage.tx := by
  induction inv with
  | nil => rfl
  | cons a l ih => cases h : get a <;> simp [h, ih]

/-- Auxiliary: the not-found half of the partition in the reader getdata
arm, projected back to items, equals the in-order not-found items of the
inventory list. -/
theorem serve_not_found_eq (get : Inventory → Option Transaction)
    (inv : List Inventory) :
    ((inv.map (fun i => (i, get i))).filter
        (fun p => p.2.isNone)).map (fun p => p.1)
      = inv.filter (fun i => (get i).isNone) := by
  induction inv with
  | nil => rfl
  | cons a l ih => cases h : get a <;> simpa [h] using ih

/-- Claim C3: serving a `GetData inv` frame sends one `Tx` message per
inventory item found in the mempool, in input order, followed by a single
`NotFound` listing the not-found items in input order exactly when some
item is not found (so no `NotFound` at all when every item is found, the
empty branch of the conditional); `Block`, `WitnessBlock` and `Error`
items are never found, so whenever present they land in the not-found
list. Universally quantified over the inventory: the all-found case is an
instance. -/
theorem reader_getdata_serves (network_magic : Nat) (mempool : Mempool)
    (inv : List Inventory) (responses : ResponsesMap) (h : BlockHash) :
    ((Peer.reader_thread_step network_magic mempool
        ⟨network_magic, .getData inv⟩ responses).2
      = (inv.filterMap mempool.get_tx).map NetworkMessage.tx ++
        (if inv.filter (fun j => (mempool.get_tx j).isNone) = [] then []
         else [.notFound (inv.filter
             (fun j => (mempool.get_tx j).isNone))])) ∧
    (mempool.get_tx (.block h) = none) ∧
    (mempool.get_tx (.witnessBlock h) = none) ∧
    (mempool.get_tx .error = none) ∧
    (∀ b2, Inventory.block b2 ∈ inv →
        Inventory.block b2 ∈ inv.filter
          (fun j => (mempool.get_tx j).isNone)) ∧
    (∀ b2, Inventory.witnessBlock b2 ∈ inv →
        Inventory.witnessBlock b2 ∈ inv.filter
          (fun j => (mempool.get_tx j).isNone)) ∧
    (Inventory.error ∈ inv →
        Inventory.error ∈ inv.filter
          (fun j => (mempool.get_tx j).isNone)) := by
  refine ⟨?_, rfl, rfl, rfl,
    fun b2 hb => List.mem_filter.mpr ⟨hb, by simp [Mempool.get_tx]⟩,
    fun b2 hb => List.mem_filter.mpr ⟨hb, by simp [Mempool.get_tx]⟩,
    fun hb => List.mem_filter.mpr ⟨hb, by simp [Mempool.get_tx]⟩⟩
  · have hnf := serve_not_found_eq mempool.get_tx inv
    have hpred : (not ∘ fun p : Inventory × Option Transaction => p.2.isSome)
        = (fun p : Inventory × Option Transaction => p.2.isNone) := by
      funext p
      cases hp : p.2 <;> simp [hp]
    have hsent :
        (Peer.reader_thread_step network_magic mempool
            ⟨network_magic, .getData inv⟩ responses).2
          = ((inv.map (fun j => (j, mempool.get_tx j))).filter
                (fun p => p.2.isSome)).filterMap
                (fun p => p.2.map NetworkMessage.tx) ++
            (if ((inv.map (fun j => (j, mempool.get_tx j))).filter
                  (fun p => p.2.isNone)).isEmpty then []
             else [.notFound (((inv.map (fun j => (j, mempool.get_tx j))).filter
                 (fun p => p.2.isNone)).map (fun p => p.1))]) := by
      simp [Peer.reader_thread_step, List.partition_eq_filter_filter, hpred]
    rw [hsent, serve_found_eq]
    by_cases hc : inv.filter (fun j => (mempool.get_tx j).isNone) = []
    · have hz : (inv.map (fun j => (j, mempool.get_tx j))).filter
          (fun p => p.2.isNone) = [] :=
        List.map_eq_nil_iff.mp (hnf.trans hc)
      rw [hz, hc]
      simp
    · have hne : (inv.map (fun j => (j, mempool.get_tx j))).filter
          (fun p => p.2.isNone) ≠ [] := by
        intro hz
        exact hc (by rw [← hnf, hz]; rfl)
      rw [if_neg (by simpa [List.isEmpty_iff] using hne), if_neg hc, hnf]

/-- Witness for C3: a mixed inventory (one found transaction, one block
item, producing a `Tx` and a `NotFound`), an all-found inventory
(producing no `NotFound`), and the block item landing in the not-found
list. -/
theorem reader_getdata_serves_witness :
    ((Peer.reader_thread_step 0 ((Mempool.default).add_tx ⟨⟨[1]⟩, [9]⟩)
        ⟨0, .getData [.transaction ⟨[1]⟩, .block ⟨[2]⟩]⟩ emptyResponses).2
      = ([.transaction ⟨[1]⟩, .block ⟨[2]⟩].filterMap
            ((Mempool.default).add_tx ⟨⟨[1]⟩, [9]⟩).get_tx).map
            NetworkMessage.tx ++
        (if [.transaction ⟨[1]⟩, .block ⟨[2]⟩].filter
              (fun j => ((((Mempool.default).add_tx ⟨⟨[1]⟩, [9]⟩)).get_tx
                  j).isNone) = [] then []
         else [.notFound ([.transaction ⟨[1]⟩, .block ⟨[2]⟩].filter
             (fun j => ((((Mempool.default).add_tx ⟨⟨[1]⟩, [9]⟩)).get_tx
                 j).isNone))])) ∧
    ((Peer.reader_thread_step 0 ((Mempool.default).add_tx ⟨⟨[1]⟩, [9]⟩)
        ⟨0, .getData [.transaction ⟨[1]⟩]⟩ emptyResponses).2
      = ([.transaction ⟨[1]⟩].filterMap
            ((Mempool.default).add_tx ⟨⟨[1]⟩, [9]⟩).get_tx).map
            NetworkMessage.tx ++
        (if [.transaction ⟨[1]⟩].filter
              (fun j => ((((Mempool.default).add_tx ⟨⟨[1]⟩, [9]⟩)).get_tx
                  j).isNone) = [] then []
         else [.notFound ([.transaction ⟨[1]⟩].filter
             (fun j => ((((Mempool.default).add_tx ⟨⟨[1]⟩, [9]⟩)).get_tx
                 j).isNone))])) ∧
    (Inventory.block ⟨[2]⟩) ∈ [Inventory.transaction ⟨[1]⟩,
        Inventory.block ⟨[2]⟩].filter
        (fun j => ((((Mempool.default).add_tx ⟨⟨[1]⟩, [9]⟩)).get_tx
            j).isNone) :=
  ⟨(reader_getdata_serves 0 ((Mempool.default).add_tx ⟨⟨[1]⟩, [9]⟩)
      [.transaction ⟨[1]⟩, .block ⟨[2]⟩] emptyResponses ⟨[7]⟩).1,
   (reader_getdata_serves 0 ((Mempool.default).add_tx ⟨⟨[1]⟩, [9]⟩)
      [.transaction ⟨[1]⟩] emptyResponses ⟨[7]⟩).1,
   (reader_getdata_serves 0 ((Mempool.default).add_tx ⟨⟨[1]⟩, [9]⟩)
      [.transaction ⟨[1]⟩, .block ⟨[2]⟩] emptyResponses ⟨[7]⟩).2.2.2.2.1
      ⟨[2]⟩ (by decide)⟩

/-- Auxiliary: a transaction present in the mempool is still present in
the mempool returned by the tx-drain loop of `ask_for_mempool`, whatever
the replies are (insertion only, no removal). -/
theorem ask_loop_has_tx_mono (tx_responses : Nat → Option NetworkMessage) :
    ∀ (num_txs start : Nat) (mempool : Mempool) (k : Txid),
      mempool.has_tx k = true →
      ((Peer.ask_for_mempool_loop tx_responses start mempool num_txs).2.1).has_tx k
        = true := by
  intro num_txs
  induction num_txs with
  | zero =>
      intro start mempool k h
      simpa [Peer.ask_for_mempool_loop] using h
  | succ n ih =>
      intro start mempool k h
      cases htr : tx_responses start with
      | none => simpa [Peer.ask_for_mempool_loop, htr] using h
      | some m =>
          cases m <;> simp [Peer.ask_for_mempool_loop, htr] <;>
            first
              | exact h
              | exact ih (start + 1) (mempool.add_tx _) k
                  (Mempool.has_tx_add_tx mempool _ k h)

/-- Auxiliary: peeling the first `k` successful iterations off the
tx-drain loop of `ask_for_mempool`. If the first `k` replies are `Tx`
messages, then a timeout at index `k` makes the loop return `Timeout`, a
non-`Tx` message at index `k` makes it return `InvalidResponse`, and in
every case the transactions of the first `k` replies are in the returned
mempool. -/
theorem ask_loop_peel (tx_responses : Nat → Option NetworkMessage) :
    ∀ (k : Nat) (t : Nat → Transaction) (start : Nat) (mempool : Mempool)
      (num_txs : Nat),
      k < num_txs →
      (∀ i, i < k → tx_responses (start + i) = some (.tx (t i))) →
      ((tx_responses (start + k) = none →
          (Peer.ask_for_mempool_loop tx_responses start mempool num_txs).2.2
            = .error .timeout) ∧
       (∀ m, tx_responses (start + k) = some m → (∀ u, m ≠ .tx u) →
          (Peer.ask_for_mempool_loop tx_responses start mempool num_txs).2.2
            = .error .invalidResponse) ∧
       (∀ i, i < k →
          ((Peer.ask_for_mempool_loop tx_responses start mempool
              num_txs).2.1).has_tx (t i).txid = true)) := by
  intro k
  induction k with
  | zero =>
      intro t start mempool num_txs hk _hpre
      obtain ⟨n, rfl⟩ : ∃ n, num_txs = n + 1 := ⟨num_txs - 1, by omega⟩
      refine ⟨?_, ?_, ?_⟩
      · intro h0
        simp [Peer.ask_for_mempool_loop, show tx_responses start = none from h0]
      · intro m hm hne
        cases m <;>
          simp [Peer.ask_for_mempool_loop,
            show tx_responses start = some _ from hm]
        exact absurd rfl (hne _)
      · intro i hi
        exact absurd hi (Nat.not_lt_zero i)
  | succ k ih =>
      intro t start mempool num_txs hk hpre
      obtain ⟨n, rfl⟩ : ∃ n, num_txs = n + 1 := ⟨num_txs - 1, by omega⟩
      have h0 : tx_responses start = some (.tx (t 0)) := by
        simpa using hpre 0 (Nat.succ_pos k)
      have hstep :
          Peer.ask_for_mempool_loop tx_responses start mempool (n + 1)
            = (PeerAction.recvMsg "tx" (some TIMEOUT_SECS) ::
                (Peer.ask_for_mempool_loop tx_responses (start + 1)
                  (mempool.add_tx (t 0)) n).1,
               (Peer.ask_for_mempool_loop tx_responses (start + 1)
                  (mempool.add_tx (t 0)) n).2) := by
        simp [Peer.ask_for_mempool_loop, h0]
      obtain ⟨ihA1, ihA2, ihB⟩ := ih (fun i => t (i + 1)) (start + 1)
        (mempool.add_tx (t 0)) n (by omega)
        (by
          intro i hi
          have e : start + 1 + i = start + (i + 1) := by omega
          rw [e]
          exact hpre (i + 1) (by omega))
      have e2 : start + 1 + k = start + (k + 1) := by omega
      refine ⟨?_, ?_, ?_⟩
      · intro hnone
        rw [hstep]
        exact ihA1 (by rw [e2]; exact hnone)
      · intro m hm hne
        rw [hstep]
        exact ihA2 m (by rw [e2]; exact hm) hne
      · intro i hi
        rw [hstep]
        cases i with
        | zero =>
            exact ask_loop_has_tx_mono tx_responses n (start + 1)
              (mempool.add_tx (t 0)) (t 0).txid
              (by simp [Mempool.add_tx, Mempool.has_tx])
        | succ j =>
            exact ihB j (by omega)

/-- Claim C10: `ask_for_mempool` is not atomic on error. If the first `k`
tx replies are `Tx` messages and reply `k` fails (timeout or a non-`Tx`
message) with more items outstanding, the call returns `Timeout` or
`InvalidResponse`, and every transaction received before the failure has
been inserted into the mempool and is still there in the returned
state. -/
theorem ask_for_mempool_not_atomic (mempool : Mempool) (inv : List Inventory)
    (tx_responses : Nat → Option NetworkMessage) (t : Nat → Transaction)
    (k i : Nat)
    (hk : k < (inv.filter (Peer.wanted_inv mempool)).length)
    (hpre : ∀ j, j < k → tx_responses j = some (.tx (t j)))
    (hfail : tx_responses k = none ∨ ∀ u, tx_responses k ≠ some (.tx u))
    (hi : i < k) :
    ((Peer.ask_for_mempool mempool (some (.inv inv)) tx_responses).2.2
        = .error .timeout ∨
     (Peer.ask_for_mempool mempool (some (.inv inv)) tx_responses).2.2
        = .error .invalidResponse) ∧
    ((Peer.ask_for_mempool mempool (some (.inv inv)) tx_responses).2.1).has_tx
        (t i).txid = true := by
  obtain ⟨hA1, hA2, hB⟩ := ask_loop_peel tx_responses k t 0 mempool
    ((inv.filter (Peer.wanted_inv mempool)).length) hk
    (by intro j hj; simpa using hpre j hj)
  constructor
  · cases htr : tx_responses k with
    | none =>
        left
        show (Peer.ask_for_mempool_loop tx_responses 0 mempool
            ((inv.filter (Peer.wanted_inv mempool)).length)).2.2
          = .error .timeout
        exact hA1 (by simpa using htr)
    | some m =>
        right
        show (Peer.ask_for_mempool_loop tx_responses 0 mempool
            ((inv.filter (Peer.wanted_inv mempool)).length)).2.2
          = .error .invalidResponse
        refine hA2 m (by simpa using htr) ?_
        intro u hmu
        cases hfail with
        | inl hno => rw [htr] at hno; exact Option.noConfusion hno
        | inr hnu => exact hnu u (by rw [htr, hmu])
  · show (Peer.ask_for_mempool_loop tx_responses 0 mempool
        ((inv.filter (Peer.wanted_inv mempool)).length)).2.1.has_tx
        (t i).txid = true
    exact hB i hi

/-- Witness for C10: two wanted items, one received transaction, then a
timeout; the call errors and the first transaction is in the mempool. -/
theorem ask_for_mempool_not_atomic_witness :
    ((Peer.ask_for_mempool Mempool.default
        (some (.inv [.transaction ⟨[1]⟩, .transaction ⟨[2]⟩]))
        (fun j => if j = 0 then some (.tx ⟨⟨[7]⟩, [9]⟩) else none)).2.2
        = .error .timeout ∨
     (Peer.ask_for_mempool Mempool.default
        (some (.inv [.transaction ⟨[1]⟩, .transaction ⟨[2]⟩]))
        (fun j => if j = 0 then some (.tx ⟨⟨[7]⟩, [9]⟩) else none)).2.2
        = .error .invalidResponse) ∧
    ((Peer.ask_for_mempool Mempool.default
        (some (.inv [.transaction ⟨[1]⟩, .transaction ⟨[2]⟩]))
        (fun j => if j = 0 then some (.tx ⟨⟨[7]⟩, [9]⟩) else none)).2.1).has_tx
        (⟨[7]⟩ : Txid) = true :=
  ask_for_mempool_not_atomic Mempool.default
    [.transaction ⟨[1]⟩, .transaction ⟨[2]⟩]
    (fun j => if j = 0 then some (.tx ⟨⟨[7]⟩, [9]⟩) else none)
    (fun _ => ⟨⟨[7]⟩, [9]⟩) 1 0 (by decide)
    (by
      intro j hj
      have hj0 : j = 0 := by omega
      subst hj0
      rfl)
    (Or.inl rfl) (by decide)

end Bdk
